import Mathlib

/- Shallow embedding of the session coordinator and relay engine of
`app.py` (the Flask-SocketIO two-person encrypted messaging server).

Python values that are "a string or None" (the result of `dict.get` on a
payload, and the values stored in `users` / `user_sid_map`) are modelled as
`Option String` (`PyVal`).  The module-level mutable state of `app.py` —
the `users` set, the `user_sid_map` dict, and the sqlite `messages` table —
is a `ServerState`.  Each SocketIO handler becomes a function from state to
a new state paired with the list of emitted transport effects (`emit` and
forced `disconnect` calls), in program order. -/

/-- A SocketIO session identifier (`request.sid`). -/
abbrev Sid := Nat

/-- A Python value that is either a string or `None`. -/
abbrev PyVal := Option String

/-- Python truthiness of a string-or-None value: `None` and `""` are falsy,
every other string is truthy. -/
def truthy : PyVal → Bool
  | none => false
  | some s => !(s == "")

/-- Python f-string interpolation of a string-or-None value
(`str(None)` is `"None"`). -/
def pyStr : PyVal → String
  | none => "None"
  | some s => s

/-- A persisted row of the sqlite `messages` table
(`username`, `encrypted`, `timestamp`; the autoincrement `id` is the
position in the list). -/
structure Row where
  username : String
  encrypted : String
  timestamp : String
  deriving DecidableEq

/-- The payload of a `message` event: a Python dict read with `data.get`,
so each field is a string or `None` (absent). -/
structure MsgData where
  username : PyVal
  encrypted : PyVal
  timestamp : PyVal
  deriving DecidableEq

/-- The `save_message` helper of `app.py`: INSERT appends a row at the end
of the `messages` table. -/
def save_message (username encrypted timestamp : String) (db : List Row) : List Row :=
  db ++ [⟨username, encrypted, timestamp⟩]

/-- The `get_messages` helper of `app.py`: SELECT ... ORDER BY id DESC
LIMIT `limit`, then the Python slice `rows[::-1]` reverses back to
oldest-first.  So: the `limit` most recent rows, oldest first. -/
def get_messages (limit : Nat) (db : List Row) : List Row :=
  (db.reverse.take limit).reverse

/-- The module-level mutable state of `app.py`: the `users` set (a Python
set of the joined usernames, kept duplicate-free by the interpreter), the
`user_sid_map` dict (insertion-ordered, unique keys), and the sqlite
`messages` table. -/
structure ServerState where
  users : List PyVal
  user_sid_map : List (Sid × PyVal)
  db : List Row
  deriving DecidableEq

/-- The initial state: both registries empty, empty history. -/
def init : ServerState := ⟨[], [], []⟩

/-- A transport effect emitted by a handler, in program order. -/
inductive Effect where
  | statusTo (sid : Sid) (msg : String)
  | statusRoom (msg : String)
  | historyTo (sid : Sid) (messages : List Row)
  | messageRoom (data : MsgData)
  | publicKeyTo (sid : Sid) (data : String)
  | forceDisconnect (sid : Sid)
  deriving DecidableEq

/-- Python `set.add`: a no-op when the element is already present. -/
def pyAdd (l : List PyVal) (v : PyVal) : List PyVal :=
  if v ∈ l then l else l ++ [v]

/-- Python `dict` lookup by key (`sid in user_sid_map` tests, and the
guarded `user_sid_map[sid]` reads). -/
def lookupSid (sid : Sid) : List (Sid × PyVal) → Option PyVal
  | [] => none
  | (k, v) :: t => if k = sid then some v else lookupSid sid t

/-- Python `user_sid_map.get(sid)`: `None` both when the key is absent and
when the stored value is `None`. -/
def dget (sid : Sid) (m : List (Sid × PyVal)) : PyVal :=
  match lookupSid sid m with
  | none => none
  | some v => v

/-- Python `del user_sid_map[sid]`: removes the (unique) entry with that
key; on the list model, the first such entry. -/
def eraseKey (sid : Sid) : List (Sid × PyVal) → List (Sid × PyVal)
  | [] => []
  | (k, v) :: t => if k = sid then t else (k, v) :: eraseKey sid t

/-- The relay loop of `handle_public_key`: iterate over
`user_sid_map.items()` in insertion order, emit to the first sid different
from the sender, then `break`. -/
def relayTarget (sid : Sid) : List (Sid × PyVal) → Option Sid
  | [] => none
  | (k, _) :: t => if k ≠ sid then some k else relayTarget sid t

/-- The `join` handler of `app.py` (`handle_join`).  Branches, in program
order: duplicate join on the same sid (status only); room full (status +
forced disconnect); duplicate username (status + forced disconnect);
otherwise add to both registries, broadcast the join notice to the room,
and send the (limit-50) history to the joining sid. -/
def handle_join (sid : Sid) (username : PyVal) (s : ServerState) :
    ServerState × List Effect :=
  if (lookupSid sid s.user_sid_map).isSome then
    (s, [.statusTo sid (pyStr username ++ " already joined.")])
  else if 2 ≤ s.user_sid_map.length then
    (s, [.statusTo sid "Room full.", .forceDisconnect sid])
  else if username ∈ s.users then
    (s, [.statusTo sid ("Username " ++ pyStr username ++ " already in use."),
         .forceDisconnect sid])
  else
    ({ s with users := pyAdd s.users username,
              user_sid_map := s.user_sid_map ++ [(sid, username)] },
     [.statusRoom (pyStr username ++ " joined."),
      .historyTo sid (get_messages 50 s.db)])

/-- The `disconnect` handler of `app.py` (`handle_disconnect`):
`username = user_sid_map.get(sid)`; only `if username and username in
users` are both registries updated and a leave notice broadcast. -/
def handle_disconnect (sid : Sid) (s : ServerState) : ServerState × List Effect :=
  let username := dget sid s.user_sid_map
  if truthy username ∧ username ∈ s.users then
    ({ s with users := s.users.erase username,
              user_sid_map := eraseKey sid s.user_sid_map },
     [.statusRoom (pyStr username ++ " left.")])
  else (s, [])

/-- The `message` handler of `app.py` (`handle_message`).  `saveOk` models
whether the sqlite INSERT in `save_message` succeeds; when it raises, the
handler aborts before the broadcast `emit` (there is no try/except), so no
effect is emitted and the table is unchanged. -/
def handle_message (saveOk : Bool) (sid : Sid) (data : MsgData) (s : ServerState) :
    ServerState × List Effect :=
  if lookupSid sid s.user_sid_map = none then
    (s, [.statusTo sid "You are not in the room.", .forceDisconnect sid])
  else if ¬(truthy data.encrypted ∧ truthy data.timestamp ∧ truthy data.username) then
    (s, [.statusTo sid "Invalid message: missing fields."])
  else if saveOk then
    ({ s with db := save_message (pyStr data.username) (pyStr data.encrypted)
                      (pyStr data.timestamp) s.db },
     [.messageRoom data])
  else
    (s, [])

/-- The `public_key` handler of `app.py` (`handle_public_key`): silently
ignore a sender that is not in `user_sid_map`; otherwise forward the
payload to the first other sid in the map, if any. -/
def handle_public_key (sid : Sid) (data : String) (s : ServerState) :
    ServerState × List Effect :=
  if lookupSid sid s.user_sid_map = none then (s, [])
  else
    match relayTarget sid s.user_sid_map with
    | none => (s, [])
    | some t => (s, [.publicKeyTo t data])

/-- An inbound event at the transport boundary. -/
inductive Event where
  | join (sid : Sid) (username : PyVal)
  | disconnect (sid : Sid)
  | message (saveOk : Bool) (sid : Sid) (data : MsgData)
  | publicKey (sid : Sid) (data : String)

/-- A server-side `disconnect(sid)` call fires the `disconnect` event for
that sid: apply `handle_disconnect` for every forced disconnect a handler
emitted. -/
def applyForced (s : ServerState) (effs : List Effect) : ServerState :=
  effs.foldl
    (fun st e =>
      match e with
      | .forceDisconnect sid2 => (handle_disconnect sid2 st).1
      | _ => st) s

/-- One transport step: run the handler for the event, then fire the
`disconnect` handler for each forced disconnect it requested. -/
def step (s : ServerState) (ev : Event) : ServerState :=
  match ev with
  | .join sid u =>
      let r := handle_join sid u s
      applyForced r.1 r.2
  | .disconnect sid =>
      let r := handle_disconnect sid s
      applyForced r.1 r.2
  | .message saveOk sid d =>
      let r := handle_message saveOk sid d s
      applyForced r.1 r.2
  | .publicKey sid d =>
      let r := handle_public_key sid d s
      applyForced r.1 r.2

/-- Run a sequence of inbound events from the empty initial state. -/
def run (evs : List Event) : ServerState :=
  evs.foldl step init

/- Helper lemmas about the Python-dict and Python-set primitives. -/

theorem mem_keys_of_mem {p : Sid × PyVal} {m : List (Sid × PyVal)}
    (h : p ∈ m) : p.1 ∈ m.map Prod.fst :=
  List.mem_map.mpr ⟨p, h, rfl⟩

theorem mem_vals_of_mem {p : Sid × PyVal} {m : List (Sid × PyVal)}
    (h : p ∈ m) : p.2 ∈ m.map Prod.snd :=
  List.mem_map.mpr ⟨p, h, rfl⟩

theorem lookupSid_eq_none_iff (sid : Sid) (m : List (Sid × PyVal)) :
    lookupSid sid m = none ↔ sid ∉ m.map Prod.fst := by
  induction m with
  | nil => simp [lookupSid]
  | cons p t ih =>
    obtain ⟨k, v⟩ := p
    rw [List.map_cons, List.mem_cons]
    by_cases h : k = sid
    · subst h
      simp [lookupSid]
    · rw [show lookupSid sid ((k, v) :: t) = lookupSid sid t by
        simp only [lookupSid, if_neg h], ih]
      constructor
      · intro hn
        rintro (hc | hc)
        · exact h hc.symm
        · exact hn hc
      · intro hn hc
        exact hn (Or.inr hc)

theorem lookupSid_mem {sid : Sid} {m : List (Sid × PyVal)} {v : PyVal}
    (h : lookupSid sid m = some v) : (sid, v) ∈ m := by
  induction m with
  | nil => simp [lookupSid] at h
  | cons p t ih =>
    obtain ⟨k, w⟩ := p
    by_cases hk : k = sid
    · subst hk
      rw [show lookupSid k ((k, w) :: t) = some w by simp [lookupSid]] at h
      rw [Option.some.injEq] at h
      subst h
      exact List.mem_cons_self _ _
    · rw [show lookupSid sid ((k, w) :: t) = lookupSid sid t by
        simp only [lookupSid, if_neg hk]] at h
      exact List.mem_cons_of_mem _ (ih h)

theorem lookupSid_of_mem_nodup {sid : Sid} {m : List (Sid × PyVal)} {v : PyVal}
    (hnd : (m.map Prod.fst).Nodup) (h : (sid, v) ∈ m) :
    lookupSid sid m = some v := by
  induction m with
  | nil => simp at h
  | cons p t ih =>
    obtain ⟨k, w⟩ := p
    rw [List.map_cons, List.nodup_cons] at hnd
    rcases List.mem_cons.mp h with h1 | h1
    · rw [Prod.mk.injEq] at h1
      obtain ⟨h1a, h1b⟩ := h1
      subst h1a
      subst h1b
      simp [lookupSid]
    · have hk : k ≠ sid := by
        intro hke
        subst hke
        have hmem := mem_keys_of_mem h1
        exact hnd.1 hmem
      rw [show lookupSid sid ((k, w) :: t) = lookupSid sid t by
        simp only [lookupSid, if_neg hk]]
      exact ih hnd.2 h1

theorem eraseKey_sublist (sid : Sid) (m : List (Sid × PyVal)) :
    (eraseKey sid m).Sublist m := by
  induction m with
  | nil => simp [eraseKey]
  | cons p t ih =>
    obtain ⟨k, v⟩ := p
    by_cases h : k = sid
    · rw [show eraseKey sid ((k, v) :: t) = t by simp only [eraseKey, if_pos h]]
      exact List.sublist_cons_self _ _
    · rw [show eraseKey sid ((k, v) :: t) = (k, v) :: eraseKey sid t by
        simp only [eraseKey, if_neg h]]
      exact List.Sublist.cons₂ _ ih

theorem length_eraseKey {sid : Sid} {m : List (Sid × PyVal)} {v : PyVal}
    (h : lookupSid sid m = some v) :
    (eraseKey sid m).length + 1 = m.length := by
  induction m with
  | nil => simp [lookupSid] at h
  | cons p t ih =>
    obtain ⟨k, w⟩ := p
    by_cases hk : k = sid
    · rw [show eraseKey sid ((k, w) :: t) = t by simp only [eraseKey, if_pos hk]]
      simp
    · rw [show lookupSid sid ((k, w) :: t) = lookupSid sid t by
        simp only [lookupSid, if_neg hk]] at h
      rw [show eraseKey sid ((k, w) :: t) = (k, w) :: eraseKey sid t by
        simp only [eraseKey, if_neg hk]]
      simp only [List.length_cons]
      rw [Nat.add_right_cancel_iff.mpr (ih h)]

theorem lookupSid_eraseKey_self {sid : Sid} {m : List (Sid × PyVal)}
    (hnd : (m.map Prod.fst).Nodup) :
    lookupSid sid (eraseKey sid m) = none := by
  induction m with
  | nil => simp [eraseKey, lookupSid]
  | cons p t ih =>
    obtain ⟨k, v⟩ := p
    rw [List.map_cons, List.nodup_cons] at hnd
    by_cases h : k = sid
    · subst h
      rw [show eraseKey k ((k, v) :: t) = t by simp [eraseKey]]
      rw [lookupSid_eq_none_iff]
      exact hnd.1
    · rw [show eraseKey sid ((k, v) :: t) = (k, v) :: eraseKey sid t by
        simp only [eraseKey, if_neg h]]
      rw [show lookupSid sid ((k, v) :: eraseKey sid t) = lookupSid sid (eraseKey sid t) by
        simp only [lookupSid, if_neg h]]
      exact ih hnd.2

theorem vals_eraseKey {sid : Sid} {m : List (Sid × PyVal)} {v : PyVal}
    (h : lookupSid sid m = some v) (hnd : (m.map Prod.snd).Nodup) :
    ∀ w, w ∈ (eraseKey sid m).map Prod.snd ↔ (w ≠ v ∧ w ∈ m.map Prod.snd) := by
  induction m with
  | nil => simp [lookupSid] at h
  | cons p t ih =>
    obtain ⟨k, b⟩ := p
    rw [List.map_cons, List.nodup_cons] at hnd
    intro w
    by_cases hk : k = sid
    · subst hk
      rw [show lookupSid k ((k, b) :: t) = some b by simp [lookupSid]] at h
      rw [Option.some.injEq] at h
      subst h
      rw [show eraseKey k ((k, b) :: t) = t by simp [eraseKey]]
      rw [List.map_cons, List.mem_cons]
      constructor
      · intro hw
        refine ⟨?_, Or.inr hw⟩
        intro he
        subst he
        exact hnd.1 hw
      · rintro ⟨hne, hw | hw⟩
        · exact absurd hw hne
        · exact hw
    · rw [show lookupSid sid ((k, b) :: t) = lookupSid sid t by
        simp only [lookupSid, if_neg hk]] at h
      have hbv : b ≠ v := by
        intro he
        subst he
        have hv := lookupSid_mem h
        have hv2 := mem_vals_of_mem hv
        exact hnd.1 hv2
      rw [show eraseKey sid ((k, b) :: t) = (k, b) :: eraseKey sid t by
        simp only [eraseKey, if_neg hk]]
      rw [List.map_cons, List.mem_cons, List.map_cons, List.mem_cons]
      constructor
      · rintro (hw | hw)
        · subst hw
          exact ⟨hbv, Or.inl rfl⟩
        · obtain ⟨hne, hmem⟩ := (ih h hnd.2 w).mp hw
        
          exact ⟨hne, Or.inr hmem⟩
      · rintro ⟨hne, hw | hw⟩
        · exact Or.inl hw
        · exact Or.inr ((ih h hnd.2 w).mpr ⟨hne, hw⟩)

/- The room-state invariant maintained by the handlers. -/

/-- Well-formedness of the module-level state: `user_sid_map` is a real
dict (unique keys), active usernames are pairwise distinct, the `users`
set holds exactly the usernames registered in `user_sid_map`, and the
room never has more than two members. -/
structure StateInv (s : ServerState) : Prop where
  keys_nodup : (s.user_sid_map.map Prod.fst).Nodup
  vals_nodup : (s.user_sid_map.map Prod.snd).Nodup
  users_nodup : s.users.Nodup
  users_eq : ∀ v, v ∈ s.users ↔ v ∈ s.user_sid_map.map Prod.snd
  users_len : s.users.length = s.user_sid_map.length
  card_le : s.user_sid_map.length ≤ 2

theorem handle_disconnect_eq (sid : Sid) (s : ServerState) :
    handle_disconnect sid s =
      if truthy (dget sid s.user_sid_map) ∧ (dget sid s.user_sid_map) ∈ s.users then
        ({ s with users := s.users.erase (dget sid s.user_sid_map),
                  user_sid_map := eraseKey sid s.user_sid_map },
         [.statusRoom (pyStr (dget sid s.user_sid_map) ++ " left.")])
      else (s, []) := rfl

theorem dget_eq_of_lookupSid {sid : Sid} {m : List (Sid × PyVal)} {v : PyVal}
    (hl : lookupSid sid m = some v) : dget sid m = v := by
  unfold dget
  rw [hl]

theorem lookupSid_of_truthy_dget {sid : Sid} {m : List (Sid × PyVal)}
    (h : truthy (dget sid m) = true) : lookupSid sid m = some (dget sid m) := by
  cases hl : lookupSid sid m with
  | none =>
    exfalso
    unfold dget at h
    rw [hl] at h
    simp [truthy] at h
  | some v =>
    rw [dget_eq_of_lookupSid hl]

theorem inv_disconnect (sid : Sid) {s : ServerState} (h : StateInv s) :
    StateInv (handle_disconnect sid s).1 := by
  rw [handle_disconnect_eq]
  by_cases hc : truthy (dget sid s.user_sid_map) ∧ dget sid s.user_sid_map ∈ s.users
  · rw [if_pos hc]
    obtain ⟨ht, hmem⟩ := hc
    have hlook : lookupSid sid s.user_sid_map = some (dget sid s.user_sid_map) :=
      lookupSid_of_truthy_dget ht
    have hsub := eraseKey_sublist sid s.user_sid_map
    refine ⟨?_, ?_, ?_, ?_, ?_, ?_⟩
    · exact List.Nodup.sublist (List.Sublist.map Prod.fst hsub) h.keys_nodup
    · exact List.Nodup.sublist (List.Sublist.map Prod.snd hsub) h.vals_nodup
    · exact h.users_nodup.erase _
    · intro w
      rw [List.Nodup.mem_erase_iff h.users_nodup]
      rw [vals_eraseKey hlook h.vals_nodup w]
      rw [h.users_eq w]
    · have h1 := length_eraseKey hlook
      have h2 := List.length_erase_of_mem hmem
      have h3 := h.users_len
      show (s.users.erase (dget sid s.user_sid_map)).length =
        (eraseKey sid s.user_sid_map).length
      omega
    · have h1 := length_eraseKey hlook
      have h2 := h.card_le
      show (eraseKey sid s.user_sid_map).length ≤ 2
      omega
  · rw [if_neg hc]
    exact h

theorem inv_join (sid : Sid) (u : PyVal) {s : ServerState} (h : StateInv s) :
    StateInv (handle_join sid u s).1 := by
  unfold handle_join
  by_cases h1 : (lookupSid sid s.user_sid_map).isSome
  · rw [if_pos h1]
    exact h
  · rw [if_neg h1]
    by_cases h2 : 2 ≤ s.user_sid_map.length
    · rw [if_pos h2]
      exact h
    · rw [if_neg h2]
      by_cases h3 : u ∈ s.users
      · rw [if_pos h3]
        exact h
      · rw [if_neg h3]
        have hsid : sid ∉ s.user_sid_map.map Prod.fst :=
          (lookupSid_eq_none_iff _ _).mp (Option.not_isSome_iff_eq_none.mp h1)
        have hu : u ∉ s.user_sid_map.map Prod.snd := fun hm => h3 ((h.users_eq u).mpr hm)
        have hadd : pyAdd s.users u = s.users ++ [u] := by
          unfold pyAdd
          rw [if_neg h3]
        refine ⟨?_, ?_, ?_, ?_, ?_, ?_⟩
        · rw [List.map_append]
          refine List.Nodup.append h.keys_nodup (by simp) ?_
          intro a ha hb
          rw [List.map_singleton, List.mem_singleton] at hb
          subst hb
          exact hsid ha
        · rw [List.map_append]
          refine List.Nodup.append h.vals_nodup (by simp) ?_
          intro a ha hb
          rw [List.map_singleton, List.mem_singleton] at hb
          subst hb
          exact hu ha
        · rw [hadd]
          refine List.Nodup.append h.users_nodup (by simp) ?_
          intro a ha hb
          rw [List.mem_singleton] at hb
          subst hb
          exact h3 ha
        · intro w
          rw [hadd, List.map_append, List.mem_append, List.mem_append]
          rw [h.users_eq w]
          rw [List.map_singleton]
        · rw [hadd, List.length_append, List.length_append]
          rw [h.users_len]
          simp
        · rw [List.length_append]
          have := Nat.lt_of_not_le h2
          simp
          omega

theorem inv_message (saveOk : Bool) (sid : Sid) (d : MsgData) {s : ServerState}
    (h : StateInv s) : StateInv (handle_message saveOk sid d s).1 := by
  unfold handle_message
  by_cases h1 : lookupSid sid s.user_sid_map = none
  · rw [if_pos h1]
    exact h
  · rw [if_neg h1]
    by_cases h2 : ¬(truthy d.encrypted ∧ truthy d.timestamp ∧ truthy d.username)
    · rw [if_pos h2]
      exact h
    · rw [if_neg h2]
      cases saveOk with
      | true =>
        simp only [if_pos]
        exact ⟨h.keys_nodup, h.vals_nodup, h.users_nodup, h.users_eq, h.users_len, h.card_le⟩
      | false =>
        simp only [Bool.false_eq_true, if_false]
        exact h

theorem public_key_state (sid : Sid) (d : String) (s : ServerState) :
    (handle_public_key sid d s).1 = s := by
  unfold handle_public_key
  by_cases h1 : lookupSid sid s.user_sid_map = none
  · rw [if_pos h1]
  · rw [if_neg h1]
    cases relayTarget sid s.user_sid_map <;> rfl

theorem inv_applyForced (effs : List Effect) {s : ServerState} (h : StateInv s) :
    StateInv (applyForced s effs) := by
  induction effs generalizing s with
  | nil => exact h
  | cons e t ih =>
    unfold applyForced
    rw [List.foldl_cons]
    cases e with
    | forceDisconnect sid2 => exact ih (inv_disconnect sid2 h)
    | statusTo sid2 msg => exact ih h
    | statusRoom msg => exact ih h
    | historyTo sid2 msgs => exact ih h
    | messageRoom d => exact ih h
    | publicKeyTo sid2 d => exact ih h

theorem inv_step (ev : Event) {s : ServerState} (h : StateInv s) : StateInv (step s ev) := by
  cases ev with
  | join sid u => exact inv_applyForced _ (inv_join sid u h)
  | disconnect sid => exact inv_applyForced _ (inv_disconnect sid h)
  | message saveOk sid d => exact inv_applyForced _ (inv_message saveOk sid d h)
  | publicKey sid d => exact inv_applyForced _ ((public_key_state sid d s).symm ▸ h)

theorem inv_foldl (evs : List Event) {s : ServerState} (h : StateInv s) :
    StateInv (evs.foldl step s) := by
  induction evs generalizing s with
  | nil => exact h
  | cons e t ih =>
    rw [List.foldl_cons]
    exact ih (inv_step e h)

theorem inv_init : StateInv init := by
  constructor <;> simp [init]

theorem inv_run (evs : List Event) : StateInv (run evs) :=
  inv_foldl evs inv_init

/- Shared consequences of the handler definitions. -/

/-- A disconnect for a connection with no participant is a no-op. -/
theorem disconnect_no_participant (sid : Sid) (s : ServerState)
    (h : lookupSid sid s.user_sid_map = none) :
    handle_disconnect sid s = (s, []) := by
  rw [handle_disconnect_eq]
  have hd : dget sid s.user_sid_map = none := by
    unfold dget
    rw [h]
  rw [hd]
  simp [truthy]

/- Claim theorems. -/

/-- C1: the spec (and the repository's own integration test, which asserts
that an empty-string ciphertext must be persisted) says a message whose
`encrypted` field is present but equal to `""` succeeds.  The code
disagrees: the truthiness check `not (encrypted and timestamp and
username)` in `handle_message` treats `""` like a missing field, so with
member `"alice"` active the payload
`{username: "alice", encrypted: "", timestamp: "t2"}` is rejected with the
`InvalidMessage` status notice to the sender, nothing is persisted and
nothing is broadcast. -/
theorem C1_empty_ciphertext_rejected :
    handle_message true 0 ⟨some "alice", some "", some "t2"⟩
      ⟨[some "alice"], [(0, some "alice")], []⟩
    = (⟨[some "alice"], [(0, some "alice")], []⟩,
       [.statusTo 0 "Invalid message: missing fields."]) := by decide

/-- C2 counterexample: with 51 persisted messages, the history event sent
on join holds only the 50 most recent rows (`get_messages` defaults to
`limit=50`), not all 51, refuting the claim for arbitrary N. -/
theorem C2_counterexample :
    (handle_join 0 (some "u") ⟨[], [], List.replicate 51 (Row.mk "a" "m" "t")⟩).2
      = [.statusRoom "u joined.",
         .historyTo 0 (List.replicate 50 (Row.mk "a" "m" "t"))] ∧
    List.replicate 50 (Row.mk "a" "m" "t") ≠ List.replicate 51 (Row.mk "a" "m" "t") := by
  constructor
  · decide
  · intro h
    have hlen := congrArg List.length h
    simp at hlen

/-- C2 (amended): a successful join after N previously persisted messages
receives a `history` event with exactly those N messages in insertion
order, provided N ≤ 50; the replay is capped at the 50 most recent. -/
theorem C2_history_replay (sid : Sid) (u : PyVal) (s : ServerState)
    (h1 : lookupSid sid s.user_sid_map = none)
    (h2 : s.user_sid_map.length < 2)
    (h3 : u ∉ s.users)
    (h4 : s.db.length ≤ 50) :
    (handle_join sid u s).2
      = [.statusRoom (pyStr u ++ " joined."), .historyTo sid s.db] := by
  have hall : get_messages 50 s.db = s.db := by
    unfold get_messages
    rw [List.take_of_length_le (by simpa using h4), List.reverse_reverse]
  unfold handle_join
  rw [h1]
  simp only [Option.isSome_none, Bool.false_eq_true, if_false]
  rw [if_neg (Nat.not_le_of_lt h2), if_neg h3, hall]

/-- C2 witness: one prior message is replayed in full to the joiner. -/
theorem C2_history_replay_witness :
    (handle_join 0 (some "u") ⟨[], [], [Row.mk "a" "m" "t"]⟩).2
      = [.statusRoom "u joined.", .historyTo 0 [Row.mk "a" "m" "t"]] :=
  C2_history_replay 0 (some "u") ⟨[], [], [Row.mk "a" "m" "t"]⟩
    (by decide) (by decide) (by decide) (by decide)

/-- C3 counterexample: with member `"alice"` active and a fully valid
payload, a failing history append (`saveOk = false`) leaves the state
unchanged and emits no effect at all — in particular the message is NOT
broadcast, refuting "broadcast does not depend on persistence
succeeding". -/
theorem C3_counterexample :
    handle_message false 0 ⟨some "alice", some "x", some "t"⟩
      ⟨[some "alice"], [(0, some "alice")], []⟩
    = (⟨[some "alice"], [(0, some "alice")], []⟩, []) := by decide

/-- C3 (amended): if the history-store append fails while an active member
sends a valid message, the handler aborts: no status notice is emitted to
any connection (the failure is not surfaced on the event interface),
nothing is persisted, and the message is NOT broadcast — broadcast
happens only when persistence succeeds, because there is no try/except
around `save_message`. -/
theorem C3_save_failure_aborts (sid : Sid) (d : MsgData) (s : ServerState)
    (h1 : ¬lookupSid sid s.user_sid_map = none)
    (h2 : truthy d.encrypted ∧ truthy d.timestamp ∧ truthy d.username) :
    handle_message false sid d s = (s, []) := by
  unfold handle_message
  rw [if_neg h1, if_neg (not_not_intro h2)]
  simp

/-- C3 witness: a concrete failing append from member `"bob"`. -/
theorem C3_save_failure_aborts_witness :
    handle_message false 1 ⟨some "bob", some "cipher", some "t9"⟩
      ⟨[some "bob"], [(1, some "bob")], []⟩
    = (⟨[some "bob"], [(1, some "bob")], []⟩, []) :=
  C3_save_failure_aborts 1 ⟨some "bob", some "cipher", some "t9"⟩
    ⟨[some "bob"], [(1, some "bob")], []⟩ (by decide) (by decide)

/-- C4: for every sequence of join, disconnect, message and key-exchange
events starting from the empty room, the room never holds more than two
members: both the connection registry `user_sid_map` and the username set
`users` have at most 2 entries. -/
theorem C4_capacity (evs : List Event) :
    (run evs).user_sid_map.length ≤ 2 ∧ (run evs).users.length ≤ 2 := by
  have h := inv_run evs
  refine ⟨h.card_le, ?_⟩
  rw [h.users_len]
  exact h.card_le

/-- C5 counterexample: a member that joined with the empty-string username
is never removed on disconnect (the `if username and ...` guard treats
`""` as falsy), so after its disconnect a fresh join with the same
username `""` is rejected (`DuplicateUsername`) and force-disconnected:
the slot and username are NOT freed. -/
theorem C5_counterexample :
    run [Event.join 0 (some ""), Event.disconnect 0]
      = ⟨[some ""], [(0, some "")], []⟩ ∧
    (handle_join 1 (some "") ⟨[some ""], [(0, some "")], []⟩).1
      = ⟨[some ""], [(0, some "")], []⟩ ∧
    (handle_join 1 (some "") ⟨[some ""], [(0, some "")], []⟩).2
      = [.statusTo 1 "Username  already in use.", .forceDisconnect 1] := by
  refine ⟨by decide, by decide, by decide⟩

/-- C5 (amended): in every reachable state the usernames of the active
members are pairwise distinct; and after a member with a NONEMPTY
username u disconnects, a subsequent join with username u from a fresh
connection succeeds (the slot and username are freed).  For the
empty-string username the disconnect cleanup is skipped, so that case is
excluded. -/
theorem C5_distinct_and_rejoin :
    (∀ evs : List Event, ((run evs).user_sid_map.map Prod.snd).Nodup) ∧
    (∀ (evs : List Event) (sid sid' : Sid) (u : String), u ≠ "" →
      (sid, some u) ∈ (run evs).user_sid_map →
      sid' ∉ ((run evs).user_sid_map.map Prod.fst) →
      (sid', some u) ∈
        ((handle_join sid' (some u)
          (handle_disconnect sid (run evs)).1).1).user_sid_map ∧
      Effect.forceDisconnect sid' ∉
        (handle_join sid' (some u) (handle_disconnect sid (run evs)).1).2) := by
  constructor
  · intro evs
    exact (inv_run evs).vals_nodup
  · intro evs sid sid' u hu hmem hfresh
    have h := inv_run evs
    have hlook : lookupSid sid (run evs).user_sid_map = some (some u) :=
      lookupSid_of_mem_nodup h.keys_nodup hmem
    have hd : dget sid (run evs).user_sid_map = some u := dget_eq_of_lookupSid hlook
    have ht : truthy (some u) = true := by simp [truthy, hu]
    have hmemu : some u ∈ (run evs).users :=
      (h.users_eq _).mpr (mem_vals_of_mem hmem)
    have hdis : (handle_disconnect sid (run evs)).1
        = ⟨(run evs).users.erase (some u),
           eraseKey sid (run evs).user_sid_map, (run evs).db⟩ := by
      rw [handle_disconnect_eq, hd, if_pos ⟨ht, hmemu⟩]
    rw [hdis]
    have hlook' : lookupSid sid' (eraseKey sid (run evs).user_sid_map) = none := by
      rw [lookupSid_eq_none_iff]
      intro hmem'
      exact hfresh
        ((List.Sublist.map Prod.fst (eraseKey_sublist sid _)).subset hmem')
    have hlen : ¬ 2 ≤ (eraseKey sid (run evs).user_sid_map).length := by
      have h1 := length_eraseKey hlook
      have h2 := h.card_le
      omega
    have hnou : some u ∉ (run evs).users.erase (some u) := by
      intro hc
      exact ((List.Nodup.mem_erase_iff h.users_nodup).mp hc).1 rfl
    unfold handle_join
    rw [hlook']
    simp only [Option.isSome_none, Bool.false_eq_true, if_false]
    rw [if_neg hlen, if_neg hnou]
    constructor
    · exact List.mem_append_right _ (List.mem_singleton_self _)
    · simp

/-- C5 witness: after `"alice"` (sid 0) disconnects, a fresh connection
(sid 1) joins as `"alice"` successfully. -/
theorem C5_witness :
    (1, some "alice") ∈
      ((handle_join 1 (some "alice")
        (handle_disconnect 0 (run [Event.join 0 (some "alice")])).1).1).user_sid_map :=
  (C5_distinct_and_rejoin.2 [Event.join 0 (some "alice")] 0 1 "alice"
    (by decide) (by decide) (by decide)).1

/-- C6: a join rejected because the room is full or the username is taken
leaves the whole state (membership, registry, history) exactly as it was
— also after the forced disconnect it triggers — and emits exactly one
status notice to the requesting connection followed by its forced
disconnect. -/
theorem C6_rejected_join_frame (sid : Sid) (u : PyVal) (s : ServerState)
    (h1 : lookupSid sid s.user_sid_map = none)
    (h2 : 2 ≤ s.user_sid_map.length ∨ u ∈ s.users) :
    (handle_join sid u s).1 = s ∧
    step s (.join sid u) = s ∧
    ∃ m, (handle_join sid u s).2 = [.statusTo sid m, .forceDisconnect sid] := by
  have hd := disconnect_no_participant sid s h1
  by_cases hf : 2 ≤ s.user_sid_map.length
  · have hj : handle_join sid u s
        = (s, [.statusTo sid "Room full.", .forceDisconnect sid]) := by
      unfold handle_join
      rw [h1]
      simp only [Option.isSome_none, Bool.false_eq_true, if_false]
      rw [if_pos hf]
    refine ⟨by rw [hj], ?_, ⟨"Room full.", by rw [hj]⟩⟩
    show applyForced (handle_join sid u s).1 (handle_join sid u s).2 = s
    rw [hj]
    show (handle_disconnect sid s).1 = s
    rw [hd]
  · have h3 : u ∈ s.users := h2.resolve_left hf
    have hj : handle_join sid u s
        = (s, [.statusTo sid ("Username " ++ pyStr u ++ " already in use."),
               .forceDisconnect sid]) := by
      unfold handle_join
      rw [h1]
      simp only [Option.isSome_none, Bool.false_eq_true, if_false]
      rw [if_neg hf, if_pos h3]
    refine ⟨by rw [hj], ?_,
      ⟨"Username " ++ pyStr u ++ " already in use.", by rw [hj]⟩⟩
    show applyForced (handle_join sid u s).1 (handle_join sid u s).2 = s
    rw [hj]
    show (handle_disconnect sid s).1 = s
    rw [hd]

/-- C6 witness: a third join into a full room, and a duplicate-username
join, both leave the state unchanged. -/
theorem C6_witness :
    (handle_join 2 (some "carol")
      ⟨[some "a", some "b"], [(0, some "a"), (1, some "b")], []⟩).1
      = ⟨[some "a", some "b"], [(0, some "a"), (1, some "b")], []⟩ ∧
    step ⟨[some "a"], [(0, some "a")], []⟩ (.join 1 (some "a"))
      = ⟨[some "a"], [(0, some "a")], []⟩ :=
  ⟨(C6_rejected_join_frame 2 (some "carol")
      ⟨[some "a", some "b"], [(0, some "a"), (1, some "b")], []⟩
      (by decide) (Or.inl (by decide))).1,
   (C6_rejected_join_frame 1 (some "a") ⟨[some "a"], [(0, some "a")], []⟩
      (by decide) (Or.inr (by decide))).2.1⟩

/-- C7: a message from a connection with no active participant is rejected
with the `NotInRoom` status to the sender only, followed by its forced
disconnect; the state — including the history log — is unchanged (nothing
persisted), no `messageRoom` broadcast is emitted, and the triggered
disconnect also leaves the state unchanged. -/
theorem C7_not_in_room (saveOk : Bool) (sid : Sid) (d : MsgData) (s : ServerState)
    (h : lookupSid sid s.user_sid_map = none) :
    handle_message saveOk sid d s
      = (s, [.statusTo sid "You are not in the room.", .forceDisconnect sid]) ∧
    step s (.message saveOk sid d) = s := by
  have hm : handle_message saveOk sid d s
      = (s, [.statusTo sid "You are not in the room.", .forceDisconnect sid]) := by
    unfold handle_message
    rw [if_pos h]
  refine ⟨hm, ?_⟩
  show applyForced (handle_message saveOk sid d s).1 (handle_message saveOk sid d s).2 = s
  rw [hm]
  show (handle_disconnect sid s).1 = s
  rw [disconnect_no_participant sid s h]

/-- C7 witness: a never-joined connection sending a well-formed message. -/
theorem C7_witness :
    handle_message true 5 ⟨some "u", some "x", some "t"⟩ init
      = (init, [.statusTo 5 "You are not in the room.", .forceDisconnect 5]) :=
  (C7_not_in_room true 5 ⟨some "u", some "x", some "t"⟩ init (by decide)).1

/-- C8: the `public_key` handler never changes the state; from a
connection with no active participant it is silently ignored (no effect
at all); from the sole active member the payload is dropped (forwarded to
no one); from one of two active members it is forwarded unmodified to the
other member only — never echoed to the sender. -/
theorem C8_key_relay (sid : Sid) (d : String) (s : ServerState) :
    (handle_public_key sid d s).1 = s ∧
    (lookupSid sid s.user_sid_map = none → (handle_public_key sid d s).2 = []) ∧
    (∀ u, s.user_sid_map = [(sid, u)] → (handle_public_key sid d s).2 = []) ∧
    (∀ sid2 u u2, sid2 ≠ sid →
      (s.user_sid_map = [(sid, u), (sid2, u2)] ∨
       s.user_sid_map = [(sid2, u2), (sid, u)]) →
      (handle_public_key sid d s).2 = [.publicKeyTo sid2 d]) := by
  refine ⟨public_key_state sid d s, ?_, ?_, ?_⟩
  · intro h
    unfold handle_public_key
    rw [if_pos h]
  · intro u hm
    unfold handle_public_key
    rw [hm]
    simp [lookupSid, relayTarget]
  · rintro sid2 u u2 hne (hm | hm) <;>
    · unfold handle_public_key
      rw [hm]
      simp [lookupSid, relayTarget, hne]

/-- C8 witness: ignored for a stranger, dropped for a sole member,
forwarded to the other of two members. -/
theorem C8_witness :
    (handle_public_key 5 "K" init).2 = [] ∧
    (handle_public_key 0 "K" ⟨[some "a"], [(0, some "a")], []⟩).2 = [] ∧
    (handle_public_key 0 "K"
      ⟨[some "a", some "b"], [(0, some "a"), (1, some "b")], []⟩).2
      = [.publicKeyTo 1 "K"] :=
  ⟨(C8_key_relay 5 "K" init).2.1 (by decide),
   (C8_key_relay 0 "K" ⟨[some "a"], [(0, some "a")], []⟩).2.2.1 (some "a") rfl,
   (C8_key_relay 0 "K"
      ⟨[some "a", some "b"], [(0, some "a"), (1, some "b")], []⟩).2.2.2
      1 (some "a") (some "b") (by decide) (Or.inl rfl)⟩

/-- C9: leave is total and idempotent on every dict-shaped state: a
disconnect for a connection that never successfully joined leaves the
state unchanged (and emits nothing), and applying the disconnect handler
twice for the same connection yields the same state as applying it
once. -/
theorem C9_leave_idempotent (sid : Sid) (s : ServerState)
    (hkeys : (s.user_sid_map.map Prod.fst).Nodup) :
    (lookupSid sid s.user_sid_map = none → handle_disconnect sid s = (s, [])) ∧
    (handle_disconnect sid (handle_disconnect sid s).1).1
      = (handle_disconnect sid s).1 := by
  refine ⟨disconnect_no_participant sid s, ?_⟩
  by_cases hc : truthy (dget sid s.user_sid_map) ∧ dget sid s.user_sid_map ∈ s.users
  · have h1 : (handle_disconnect sid s).1
        = ⟨s.users.erase (dget sid s.user_sid_map),
           eraseKey sid s.user_sid_map, s.db⟩ := by
      rw [handle_disconnect_eq, if_pos hc]
    rw [h1]
    have h2 : lookupSid sid (eraseKey sid s.user_sid_map) = none :=
      lookupSid_eraseKey_self hkeys
    have h3 := disconnect_no_participant sid
      ⟨s.users.erase (dget sid s.user_sid_map),
       eraseKey sid s.user_sid_map, s.db⟩ h2
    rw [h3]
  · have h1 : (handle_disconnect sid s).1 = s := by
      rw [handle_disconnect_eq, if_neg hc]
    rw [h1]
    exact h1

/-- C9 witness: double disconnect of the sole member, and a disconnect of
a never-joined connection. -/
theorem C9_witness :
    (handle_disconnect 0 ((handle_disconnect 0
        ⟨[some "a"], [(0, some "a")], []⟩).1)).1
      = (handle_disconnect 0 ⟨[some "a"], [(0, some "a")], []⟩).1 ∧
    handle_disconnect 3 init = (init, []) :=
  ⟨(C9_leave_idempotent 0 ⟨[some "a"], [(0, some "a")], []⟩ (by decide)).2,
   (C9_leave_idempotent 3 init (by decide)).1 (by decide)⟩

/-- C10: a message from an active member whose `username` or `timestamp`
field is present but equal to the empty string is rejected as
`InvalidMessage`: only the sender gets the status notice, nothing is
persisted, nothing is broadcast, and the sender is not disconnected. -/
theorem C10_empty_field_invalid (saveOk : Bool) (sid : Sid) (d : MsgData)
    (s : ServerState)
    (hmem : ¬lookupSid sid s.user_sid_map = none)
    (hempty : d.username = some "" ∨ d.timestamp = some "") :
    handle_message saveOk sid d s
      = (s, [.statusTo sid "Invalid message: missing fields."]) := by
  have hcond : ¬(truthy d.encrypted ∧ truthy d.timestamp ∧ truthy d.username) := by
    rintro ⟨he, ht, hu⟩
    rcases hempty with h | h
    · rw [h] at hu
      simp [truthy] at hu
    · rw [h] at ht
      simp [truthy] at ht
  unfold handle_message
  rw [if_neg hmem, if_pos hcond]

/-- C10 witness: an empty username field from active member sid 0. -/
theorem C10_witness :
    handle_message true 0 ⟨some "", some "x", some "t"⟩
      ⟨[some "alice"], [(0, some "alice")], []⟩
      = (⟨[some "alice"], [(0, some "alice")], []⟩,
         [.statusTo 0 "Invalid message: missing fields."]) :=
  C10_empty_field_invalid true 0 ⟨some "", some "x", some "t"⟩
    ⟨[some "alice"], [(0, some "alice")], []⟩ (by decide) (Or.inl rfl)
